import Mathlib

/-!
Shallow embedding of `src/command/apply.rs` from the colmena repository
(the `apply` subcommand: argument handling, task assembly, and the call
into the deployment executor), together with models of the boundary
collaborators that the spec describes (§4–§6) where their code is not
part of the sources (the `nix` and `deployment` modules).
-/

namespace Colmena

/-! ## Rust `usize` decimal parsing (the `--parallel` validator)

`apply.rs` validates `--parallel` with `s.parse::<usize>()` and later
re-parses the accepted value.  We embed Rust's `<usize as FromStr>::from_str`
for a 64-bit target: an optional leading `'+'`, then one or more ASCII
digits, accumulating with an overflow check against `usize::MAX`.
-/

/-- `usize::MAX` on a 64-bit target. -/
def USIZE_MAX : Nat := 2 ^ 64 - 1

/-- ASCII decimal digit test, as in Rust's `char::to_digit(10)` path. -/
def isAsciiDigit (c : Char) : Bool := '0' ≤ c && c ≤ '9'

/-- Numeric value of an ASCII digit. -/
def digitVal (c : Char) : Nat := c.toNat - '0'.toNat

/-- Digit-accumulation loop of Rust's unsigned `from_str`: each step is
`checked_mul(10)` followed by `checked_add(digit)`; overflow yields `Err`
(modelled as `none`).  A non-digit character also yields `Err`. -/
def parseUsizeDigits : List Char → Nat → Option Nat
  | [], acc => some acc
  | c :: cs, acc =>
    if isAsciiDigit c then
      let acc' := acc * 10 + digitVal c
      if acc' ≤ USIZE_MAX then parseUsizeDigits cs acc' else none
    else none

/-- Strip the single optional leading `'+'` sign accepted by Rust's
unsigned `from_str`. -/
def stripPlus : List Char → List Char
  | [] => []
  | c :: rest => if c = '+' then rest else c :: rest

/-- Rust `"s".parse::<usize>()`: strip one optional leading `'+'`, require a
nonempty digit sequence, no overflow. -/
def parseUsize (s : String) : Option Nat :=
  match stripPlus s.data with
  | [] => none
  | c :: cs => parseUsizeDigits (c :: cs) 0

/-- The clap validator on `--parallel` (apply.rs lines 28–33): accept exactly
when `s.parse::<usize>()` succeeds. -/
def validateParallel (s : String) : Bool := (parseUsize s).isSome

/-- The `--parallel` handling of `run` (apply.rs lines 84–88): clap's
`default_value("10")` supplies `"10"` when the flag is absent, the value is
parsed with `parse::<usize>()` (its `.unwrap()` panic modelled as the outer
`none`), and `0` maps to `None` (unbounded) while any other value `p` maps to
`Some p`. -/
def parallelLimit (provided : Option String) : Option (Option Nat) :=
  match parseUsize (provided.getD "10") with
  | none => none
  | some 0 => some none
  | some p => some (some p)

/-! ## Deployment goal -/

/-- The token list of `possible_values` on the positional `goal` argument
(apply.rs line 16). -/
def goalTokens : List String := ["push", "switch", "boot", "test", "dry-activate"]

/-- Closed goal enumeration (spec §3; `DeploymentGoal` lives in the `nix`
module of the crate). -/
inductive DeploymentGoal where
  | push
  | switch
  | boot
  | test
  | dryActivate
deriving DecidableEq

/-- Modelled from the spec: `DeploymentGoal::from_str` is in the crate's
`nix` module, which is not among the sources.  Per §3 the goal is "parsed
from a fixed set of literal tokens" — the five tokens of §6 — mapping
one-to-one onto the variants; any other token is no goal. -/
def DeploymentGoal.fromStr (s : String) : Option DeploymentGoal :=
  if s = "push" then some .push
  else if s = "switch" then some .switch
  else if s = "boot" then some .boot
  else if s = "test" then some .test
  else if s = "dry-activate" then some .dryActivate
  else none

/-- clap's handling of the positional `goal` argument as declared at
apply.rs lines 11–16: when absent, `default_value("switch")` supplies
`"switch"`; when present, the token is admitted only if it is among
`possible_values`, otherwise clap rejects the invocation before `run` is
entered (`none` = rejected at argument-parsing time). -/
def clapGoalValue (provided : Option String) : Option String :=
  match provided with
  | none => some "switch"
  | some t => if t ∈ goalTokens then some t else none

/-! ## Hosts, nodes, copy options, tasks -/

/-- Opaque connection descriptor (what `to_ssh_host` produces). -/
structure SshHost where
  addr : String
deriving DecidableEq

/-- A node of the inventory, reduced to what `run` uses of it: the result of
its `to_ssh_host()` call (spec §6: the inventory supplies, for each known
name, an optional connection descriptor). -/
structure Node where
  toSshHost : Option SshHost
deriving DecidableEq

/-- Modelled from the spec: `CopyOptions` is in the crate's `nix::host`
module, which is not among the sources.  Per §3 it is the value object
`{ useCompression, useSubstitutes }`; `apply.rs` sets both fields through
its builder methods `gzip` and `use_substitutes`. -/
structure CopyOptions where
  gzip : Bool
  useSubstitutes : Bool
deriving DecidableEq

/-- `CopyOptions::default()` (defaults are irrelevant here: `run` overrides
both fields). -/
def CopyOptions.default : CopyOptions := ⟨true, true⟩

/-- Builder method `.gzip(b)`. -/
def CopyOptions.withGzip (o : CopyOptions) (b : Bool) : CopyOptions :=
  { o with gzip := b }

/-- Builder method `.use_substitutes(b)`. -/
def CopyOptions.withUseSubstitutes (o : CopyOptions) (b : Bool) : CopyOptions :=
  { o with useSubstitutes := b }

/-- A deployment task as assembled by `run` (spec §3: name, connection,
artifact, goal, options; `DeploymentTask` lives in the crate's `nix`
module).  The artifact (built profile) is an opaque store path. -/
structure DeploymentTask where
  name : String
  target : SshHost
  profile : String
  goal : DeploymentGoal
  copyOptions : CopyOptions
deriving DecidableEq

/-- `DeploymentTask::new(name, target, profile, goal)`. -/
def DeploymentTask.new (name : String) (target : SshHost) (profile : String)
    (goal : DeploymentGoal) : DeploymentTask :=
  ⟨name, target, profile, goal, CopyOptions.default⟩

/-- `task.set_copy_options(options)`. -/
def DeploymentTask.setCopyOptions (t : DeploymentTask) (o : CopyOptions) :
    DeploymentTask :=
  { t with copyOptions := o }

/-! ## Command-line arguments of the `apply` subcommand -/

/-- The argument values `run` reads from clap.  `goal` and `parallel` are
`none` when the user did not pass them (clap then substitutes the declared
defaults); the three flags are presence bits; `onFilter` is the shared
`--on` selector value. -/
structure ApplyArgs where
  goal : Option String
  parallel : Option String
  verbose : Bool
  noGzip : Bool
  noSubstitutes : Bool
  onFilter : Option String
deriving DecidableEq

/-- clap's check of the positional `goal` value: accepted when absent (the
default applies) or when among `possible_values` (apply.rs line 16). -/
def goalArgOk : Option String → Bool
  | none => true
  | some t => decide (t ∈ goalTokens)

/-- The clap gate in front of `run`, from the declarations at apply.rs
lines 11–33: a provided `goal` token must be among `possible_values`, and
the effective `--parallel` value must pass the `parse::<usize>` validator.
Invocations failing either never reach `run`. -/
def clapAccepts (args : ApplyArgs) : Bool :=
  goalArgOk args.goal && validateParallel (args.parallel.getD "10")

/-- The copy options every task receives (apply.rs lines 98–101):
`CopyOptions::default().gzip(!no-gzip).use_substitutes(!no-substitutes)`. -/
def buildCopyOptions (args : ApplyArgs) : CopyOptions :=
  (CopyOptions.default.withGzip (!args.noGzip)).withUseSubstitutes
    (!args.noSubstitutes)

/-! ## Task assembly (apply.rs lines 90–110) -/

/-- `all_nodes.get(&name)` on the node map, represented as an association
list. -/
def lookupNode (allNodes : List (String × Node)) (name : String) : Option Node :=
  (allNodes.find? (fun p => p.1 = name)).map Prod.snd

/-- The assembly loop of `run` (apply.rs lines 90–110): for each
`(name, profile)` drained from the built-profile map, look the node up in
`all_nodes` (the `.unwrap()` panic on a missing name is modelled as `none`),
and either construct a `DeploymentTask` carrying the flag-derived copy
options (when `to_ssh_host()` is `Some`) or record the bare name in the
skip list (when it is `None`). -/
def assemble (allNodes : List (String × Node)) (goal : DeploymentGoal)
    (args : ApplyArgs) :
    List (String × String) → Option (List DeploymentTask × List String)
  | [] => some ([], [])
  | (name, profile) :: rest =>
    match lookupNode allNodes name with
    | none => none
    | some node =>
      match node.toSshHost with
      | some target =>
        match assemble allNodes goal args rest with
        | none => none
        | some (tasks, skips) =>
          some (((DeploymentTask.new name target profile goal).setCopyOptions
            (buildCopyOptions args)) :: tasks, skips)
      | none =>
        match assemble allNodes goal args rest with
        | none => none
        | some (tasks, skips) => some (tasks, name :: skips)

/-! ## The `run` function (apply.rs lines 55–119) -/

/-- Outcome of `run`: either the process exited early (`quit::with_code`),
or an `.unwrap()` panicked, or control reached the final
`deploy(task_list, max_parallelism, !verbose)` call, whose three arguments
we record. -/
inductive RunResult where
  | exited (code : Nat)
  | panicked
  | deployed (tasks : List DeploymentTask) (limit : Option Nat) (quiet : Bool)
deriving DecidableEq

/-- Selection of nodes (apply.rs lines 61–66): the names produced by
`util::filter_nodes` when `--on` was given, otherwise all inventory names.
`filterNodes` is the external selector collaborator (spec §6). -/
def selectNodes (allNodes : List (String × Node))
    (filterNodes : String → List String) (args : ApplyArgs) : List String :=
  match args.onFilter with
  | some filter => filterNodes filter
  | none => allNodes.map Prod.fst

/-- The CLI-derived value extraction of `run` (apply.rs lines 81–88): the
goal string (defaulted to `"switch"` by clap) through
`DeploymentGoal::from_str(..).unwrap()`, and the parallel string (defaulted
to `"10"`) through `parse::<usize>().unwrap()` and the `0 ↦ None` match.
`none` models a panic of either unwrap. -/
def cliStage (args : ApplyArgs) : Option (DeploymentGoal × Option Nat) :=
  match DeploymentGoal.fromStr (args.goal.getD "switch") with
  | none => none
  | some goal =>
    match parallelLimit args.parallel with
    | none => none
    | some limit => some (goal, limit)

/-- `run` (apply.rs lines 55–119).  External collaborators are parameters:
`allNodes` is the map returned by `hive.deployment_info()`, `filterNodes`
is `util::filter_nodes`, and `buildSelected` is `hive.build_selected`
(returning the built-profile map as an association list).  The function
checks the selection, exits with code 2 when it is empty, builds the
selected profiles, extracts the CLI-derived values, assembles the task and
skip lists, and calls `deploy(task_list, max_parallelism, !verbose)`. -/
def run (allNodes : List (String × Node)) (filterNodes : String → List String)
    (buildSelected : List String → List (String × String)) (args : ApplyArgs) :
    RunResult :=
  let selected := selectNodes allNodes filterNodes args
  if selected.length = 0 then
    RunResult.exited 2
  else
    let profiles := buildSelected selected
    match cliStage args with
    | none => RunResult.panicked
    | some (goal, limit) =>
      match assemble allNodes goal args profiles with
      | none => RunResult.panicked
      | some (taskList, _skipList) =>
        RunResult.deployed taskList limit (!args.verbose)

/-! ## The deployment executor and outcome aggregator (spec §4.2, §4.4, §5)

The executor (`crate::deployment::deploy`) is not among the sources; the
following definitions model it from the spec.
-/

/-- Terminal result of one task (spec §3, `TaskOutcome.result`). -/
inductive TaskResult where
  | success
  | transferFailure
  | activationFailure
deriving DecidableEq

/-- Is this result a success? -/
def TaskResult.isSuccess : TaskResult → Bool
  | .success => true
  | _ => false

/-- Modelled from the spec: `FleetSummary` (§3) — counts of attempted,
succeeded, failed, skipped. -/
structure FleetSummary where
  attempted : Nat
  succeeded : Nat
  failed : Nat
  skipped : Nat
deriving DecidableEq

/-- Modelled from the spec: the outcome aggregation of the executor
(§4.2, §4.4) — every dispatched task reaches exactly one terminal outcome,
and the summary counts attempted tasks, successes, failures and the skip
set. -/
def summarize (outcomes : List TaskResult) (skipped : Nat) : FleetSummary :=
  { attempted := outcomes.length
    succeeded := outcomes.countP TaskResult.isSuccess
    failed := outcomes.countP (fun r => !r.isSuccess)
    skipped := skipped }

/-- Modelled from the spec: the process exit status computed from the
summary (§4.4, design note in §9) — "zero only if the attempted set is
non-empty and every attempted task succeeded". -/
def exitStatus (s : FleetSummary) : Nat :=
  if 0 < s.attempted ∧ s.failed = 0 then 0 else 1

/-- Per-task pipeline state (spec §4.2). -/
inductive TaskState where
  | queued
  | transferring
  | activating
  | succeeded
  | failed
deriving DecidableEq

/-- Is the task occupying a worker slot (in `Transferring ∪ Activating`)? -/
def TaskState.inFlight : TaskState → Bool
  | .transferring => true
  | .activating => true
  | _ => false

/-- Number of tasks currently in `Transferring ∪ Activating`. -/
def inFlightCount (s : List TaskState) : Nat := s.countP TaskState.inFlight

/-- Admission control (spec §4.2): with a positive limit `k` a task is
admitted to `Transferring` only when fewer than `k` tasks are in flight;
with no limit admission is unconstrained. -/
def admissible (limit : Option Nat) (s : List TaskState) : Prop :=
  match limit with
  | none => True
  | some k => inFlightCount s < k

/-- Modelled from the spec: one scheduler step of the deployment executor
(§4.2's state machine and admission policy).  `goals i` is task `i`'s goal;
a `push` task skips the activation phase.  The fast/slow mix of remote
calls is captured by the nondeterminism of the interleaving. -/
inductive Step (limit : Option Nat) (goals : Nat → DeploymentGoal) :
    List TaskState → List TaskState → Prop
  | acquire (s : List TaskState) (i : Nat) :
      s.get? i = some .queued → admissible limit s →
      Step limit goals s (s.set i .transferring)
  | pushDone (s : List TaskState) (i : Nat) :
      s.get? i = some .transferring → goals i = .push →
      Step limit goals s (s.set i .succeeded)
  | transferOk (s : List TaskState) (i : Nat) :
      s.get? i = some .transferring → goals i ≠ .push →
      Step limit goals s (s.set i .activating)
  | transferFailed (s : List TaskState) (i : Nat) :
      s.get? i = some .transferring →
      Step limit goals s (s.set i .failed)
  | activateOk (s : List TaskState) (i : Nat) :
      s.get? i = some .activating →
      Step limit goals s (s.set i .succeeded)
  | activateFailed (s : List TaskState) (i : Nat) :
      s.get? i = some .activating →
      Step limit goals s (s.set i .failed)

/-- Executor runs start with every task queued. -/
def initialState (n : Nat) : List TaskState := List.replicate n .queued

/-- A state reachable during an executor run over `n` tasks. -/
def Reachable (limit : Option Nat) (goals : Nat → DeploymentGoal) (n : Nat)
    (s : List TaskState) : Prop :=
  Relation.ReflTransGen (Step limit goals) (initialState n) s

/-! ## Concrete fixtures used to exercise the theorems -/

/-- The numeric value denoted by a decimal digit string (most significant
digit first); the reference meaning against which `parseUsize` is checked. -/
def decimalValue (cs : List Char) : Nat :=
  cs.foldl (fun a c => a * 10 + digitVal c) 0

/-- A node that resolves to a connection descriptor. -/
def nodeA : Node := ⟨some ⟨"hostA"⟩⟩

/-- A node with no connection descriptor (`to_ssh_host()` is `None`). -/
def nodeB : Node := ⟨none⟩

/-- A two-node inventory: `"a"` reachable, `"b"` unresolved. -/
def fixtureNodes : List (String × Node) := [("a", nodeA), ("b", nodeB)]

/-- An invocation with no options passed. -/
def fixtureArgs : ApplyArgs := ⟨none, none, false, false, false, none⟩

/-- An invocation passing `--no-gzip` (and nothing else). -/
def gzipOffArgs : ApplyArgs := ⟨none, none, false, true, false, none⟩

/-- An invocation passing `--on "x"` (and nothing else). -/
def onArgs : ApplyArgs := ⟨none, none, false, false, false, some "x"⟩

/-- Built profiles for both fixture nodes. -/
def fixtureProfiles : List (String × String) := [("a", "pa"), ("b", "pb")]

/-- A selector that matches nothing. -/
def emptyFilter : String → List String := fun _ => []

/-- A build stage returning the fixture profiles. -/
def fixtureBuild : List String → List (String × String) := fun _ => fixtureProfiles

/-- The task `run` assembles for node `"a"` under `fixtureArgs`. -/
def fixtureTask : DeploymentTask :=
  (DeploymentTask.new "a" ⟨"hostA"⟩ "pa" .switch).setCopyOptions
    (buildCopyOptions fixtureArgs)

/-- The task `run` assembles for node `"a"` under `gzipOffArgs`. -/
def gzipOffTask : DeploymentTask :=
  (DeploymentTask.new "a" ⟨"hostA"⟩ "pa" .switch).setCopyOptions
    (buildCopyOptions gzipOffArgs)

/-! ## Lemmas about `usize` parsing -/

/-- The digit-accumulation fold never decreases the accumulator. -/
lemma le_foldl_digits (cs : List Char) :
    ∀ acc : Nat, acc ≤ cs.foldl (fun a c => a * 10 + digitVal c) acc := by
  induction cs with
  | nil => intro acc; exact Nat.le_refl acc
  | cons c cs ih =>
    intro acc
    refine Nat.le_trans ?_ (ih (acc * 10 + digitVal c))
    omega

/-- On an all-digit list whose value fits in `usize`, the accumulation loop
succeeds and computes the fold. -/
lemma parseUsizeDigits_eq_of_le (cs : List Char) :
    ∀ acc : Nat, (∀ c ∈ cs, isAsciiDigit c = true) →
      cs.foldl (fun a c => a * 10 + digitVal c) acc ≤ USIZE_MAX →
      parseUsizeDigits cs acc =
        some (cs.foldl (fun a c => a * 10 + digitVal c) acc) := by
  induction cs with
  | nil => intro acc _ _; rfl
  | cons c cs ih =>
    intro acc hd hv
    have hc : isAsciiDigit c = true := hd c (List.mem_cons_self _ _)
    have hv' : cs.foldl (fun a c => a * 10 + digitVal c) (acc * 10 + digitVal c)
        ≤ USIZE_MAX := by simpa using hv
    have hacc : acc * 10 + digitVal c ≤ USIZE_MAX :=
      Nat.le_trans (le_foldl_digits cs (acc * 10 + digitVal c)) hv'
    simp only [parseUsizeDigits, hc, if_true, hacc, List.foldl_cons]
    exact ih (acc * 10 + digitVal c) (fun x hx => hd x (List.mem_cons_of_mem _ hx)) hv'

/-- Whatever the accumulation loop returns fits in `usize`. -/
lemma parseUsizeDigits_le (cs : List Char) :
    ∀ acc n : Nat, acc ≤ USIZE_MAX → parseUsizeDigits cs acc = some n →
      n ≤ USIZE_MAX := by
  induction cs with
  | nil =>
    intro acc n hacc h
    simp only [parseUsizeDigits, Option.some.injEq] at h
    omega
  | cons c cs ih =>
    intro acc n hacc h
    simp only [parseUsizeDigits] at h
    by_cases hc : isAsciiDigit c = true
    · rw [if_pos hc] at h
      by_cases hov : acc * 10 + digitVal c ≤ USIZE_MAX
      · rw [if_pos hov] at h
        exact ih (acc * 10 + digitVal c) n hov h
      · rw [if_neg hov] at h
        exact absurd h (by simp)
    · rw [if_neg hc] at h
      exact absurd h (by simp)

/-- `parseUsize` accepts every nonempty all-digit string whose value fits in
`usize`, and returns that value. -/
lemma parseUsize_digits (c : Char) (cs : List Char)
    (hd : ∀ x ∈ c :: cs, isAsciiDigit x = true)
    (hv : decimalValue (c :: cs) ≤ USIZE_MAX) :
    parseUsize (String.mk (c :: cs)) = some (decimalValue (c :: cs)) := by
  have hc : c ≠ '+' := by
    intro hcp
    have := hd c (List.mem_cons_self _ _)
    rw [hcp] at this
    exact absurd this (by decide)
  have hstrip : stripPlus (c :: cs) = c :: cs := by
    simp [stripPlus, hc]
  show (match stripPlus (String.mk (c :: cs)).data with
    | [] => none
    | c :: cs => parseUsizeDigits (c :: cs) 0) = some (decimalValue (c :: cs))
  have hdata : (String.mk (c :: cs)).data = c :: cs := rfl
  rw [hdata, hstrip]
  exact parseUsizeDigits_eq_of_le (c :: cs) 0 hd hv

/-- Every value `parseUsize` accepts fits in `usize`. -/
lemma parseUsize_le (s : String) (n : Nat) (h : parseUsize s = some n) :
    n ≤ USIZE_MAX := by
  unfold parseUsize at h
  cases hs : stripPlus s.data with
  | nil => rw [hs] at h; exact absurd h (by simp)
  | cons c cs =>
    rw [hs] at h
    exact parseUsizeDigits_le (c :: cs) 0 n (by simp [USIZE_MAX]) h

/-- The `name` of a freshly constructed task with options attached. -/
@[simp] lemma name_of_built_task (name : String) (target : SshHost)
    (profile : String) (goal : DeploymentGoal) (o : CopyOptions) :
    ((DeploymentTask.new name target profile goal).setCopyOptions o).name = name :=
  rfl

/-- The copy options of a freshly constructed task with options attached. -/
@[simp] lemma copyOptions_of_built_task (name : String) (target : SshHost)
    (profile : String) (goal : DeploymentGoal) (o : CopyOptions) :
    ((DeploymentTask.new name target profile goal).setCopyOptions o).copyOptions = o :=
  rfl

/-- The goal of a freshly constructed task with options attached. -/
@[simp] lemma goal_of_built_task (name : String) (target : SshHost)
    (profile : String) (goal : DeploymentGoal) (o : CopyOptions) :
    ((DeploymentTask.new name target profile goal).setCopyOptions o).goal = goal :=
  rfl

/-- Combined characterization of a successful `assemble` run: the task
names together with the skip list are a permutation of the drained profile
names; every task carries the flag-derived copy options and the requested
goal; and membership in the task list / skip list is characterized by the
node's `to_ssh_host` result. -/
lemma assemble_spec (allNodes : List (String × Node)) (goal : DeploymentGoal)
    (args : ApplyArgs) :
    ∀ (profiles : List (String × String)) (tasks : List DeploymentTask)
      (skips : List String),
      assemble allNodes goal args profiles = some (tasks, skips) →
      ((tasks.map DeploymentTask.name ++ skips).Perm (profiles.map Prod.fst))
      ∧ (∀ t ∈ tasks, t.copyOptions = buildCopyOptions args ∧ t.goal = goal)
      ∧ (∀ n, n ∈ tasks.map DeploymentTask.name ↔
          ∃ p node target, (n, p) ∈ profiles ∧ lookupNode allNodes n = some node
            ∧ node.toSshHost = some target)
      ∧ (∀ n, n ∈ skips ↔
          ∃ p node, (n, p) ∈ profiles ∧ lookupNode allNodes n = some node
            ∧ node.toSshHost = none)
      ∧ (∀ q ∈ profiles, ∃ node, lookupNode allNodes q.1 = some node) := by
  intro profiles
  induction profiles with
  | nil =>
    intro tasks skips h
    simp only [assemble, Option.some.injEq, Prod.mk.injEq] at h
    obtain ⟨h1, h2⟩ := h
    subst h1; subst h2
    simp
  | cons hd rest ih =>
    intro tasks skips h
    obtain ⟨name, profile⟩ := hd
    simp only [assemble] at h
    split at h
    · exact absurd h (by simp)
    rename_i node hl
    split at h
    · rename_i target hssh
      split at h
      · exact absurd h (by simp)
      rename_i ts sk ha
      simp only [Option.some.injEq, Prod.mk.injEq] at h
      obtain ⟨h1, h2⟩ := h
      subst h1; subst h2
      obtain ⟨ihperm, ihopt, ihtask, ihskip, ihlk⟩ := ih ts sk ha
      refine ⟨?_, ?_, ?_, ?_, ?_⟩
      · simpa using ihperm.cons name
      · intro t ht
        rcases List.mem_cons.mp ht with rfl | ht'
        · exact ⟨rfl, rfl⟩
        · exact ihopt t ht'
      · intro n
        constructor
        · intro hn
          rcases (by simpa using hn : n = name ∨ n ∈ ts.map DeploymentTask.name)
            with rfl | hn'
          · exact ⟨profile, node, target, List.mem_cons_self _ _, hl, hssh⟩
          · obtain ⟨p, node', target', hmem, hlk, hs⟩ := (ihtask n).mp hn'
            exact ⟨p, node', target', List.mem_cons_of_mem _ hmem, hlk, hs⟩
        · rintro ⟨p, node', target', hmem, hlk, hs⟩
          rcases List.mem_cons.mp hmem with heq | hmem'
          · rw [Prod.mk.injEq] at heq
            obtain ⟨rfl, rfl⟩ := heq
            simp
          · have : n ∈ ts.map DeploymentTask.name :=
              (ihtask n).mpr ⟨p, node', target', hmem', hlk, hs⟩
            simp [this]
      · intro n
        constructor
        · intro hn
          obtain ⟨p, node', hmem, hlk, hs⟩ := (ihskip n).mp hn
          exact ⟨p, node', List.mem_cons_of_mem _ hmem, hlk, hs⟩
        · rintro ⟨p, node', hmem, hlk, hs⟩
          rcases List.mem_cons.mp hmem with heq | hmem'
          · rw [Prod.mk.injEq] at heq
            obtain ⟨rfl, rfl⟩ := heq
            rw [hl] at hlk
            injection hlk with hlk
            subst hlk
            rw [hssh] at hs
            exact absurd hs (by simp)
          · exact (ihskip n).mpr ⟨p, node', hmem', hlk, hs⟩
      · intro q hq
        rcases List.mem_cons.mp hq with rfl | hq'
        · exact ⟨node, hl⟩
        · exact ihlk q hq'
    · rename_i hssh
      split at h
      · exact absurd h (by simp)
      rename_i ts sk ha
      simp only [Option.some.injEq, Prod.mk.injEq] at h
      obtain ⟨h1, h2⟩ := h
      subst h1; subst h2
      obtain ⟨ihperm, ihopt, ihtask, ihskip, ihlk⟩ := ih ts sk ha
      refine ⟨?_, ?_, ?_, ?_, ?_⟩
      · simpa using List.perm_middle.trans (ihperm.cons name)
      · exact ihopt
      · intro n
        constructor
        · intro hn
          obtain ⟨p, node', target', hmem, hlk, hs⟩ := (ihtask n).mp hn
          exact ⟨p, node', target', List.mem_cons_of_mem _ hmem, hlk, hs⟩
        · rintro ⟨p, node', target', hmem, hlk, hs⟩
          rcases List.mem_cons.mp hmem with heq | hmem'
          · rw [Prod.mk.injEq] at heq
            obtain ⟨rfl, rfl⟩ := heq
            rw [hl] at hlk
            injection hlk with hlk
            subst hlk
            rw [hssh] at hs
            exact absurd hs (by simp)
          · exact (ihtask n).mpr ⟨p, node', target', hmem', hlk, hs⟩
      · intro n
        constructor
        · intro hn
          rcases List.mem_cons.mp hn with rfl | hn'
          · exact ⟨profile, node, List.mem_cons_self _ _, hl, hssh⟩
          · obtain ⟨p, node', hmem, hlk, hs⟩ := (ihskip n).mp hn'
            exact ⟨p, node', List.mem_cons_of_mem _ hmem, hlk, hs⟩
        · rintro ⟨p, node', hmem, hlk, hs⟩
          rcases List.mem_cons.mp hmem with heq | hmem'
          · rw [Prod.mk.injEq] at heq
            obtain ⟨rfl, rfl⟩ := heq
            simp
          · have : n ∈ sk := (ihskip n).mpr ⟨p, node', hmem', hlk, hs⟩
            simp [this]
      · intro q hq
        rcases List.mem_cons.mp hq with rfl | hq'
        · exact ⟨node, hl⟩
        · exact ihlk q hq'

/-! ## Lemmas about counting and the executor state machine -/

/-- Updating index `i` (holding `b`) to `a` changes `countP` by the
difference of the two indicator values, stated additively. -/
lemma countP_set_add {α : Type} (p : α → Bool) :
    ∀ (l : List α) (i : Nat) (a b : α), l.get? i = some b →
      (l.set i a).countP p + (if p b then 1 else 0) =
        l.countP p + (if p a then 1 else 0) := by
  intro l
  induction l with
  | nil => intro i a b h; simp at h
  | cons x xs ih =>
    intro i a b h
    cases i with
    | zero =>
      simp only [List.get?_cons_zero, Option.some.injEq] at h
      subst h
      simp only [List.set_cons_zero, List.countP_cons]
      cases hpa : p a <;> cases hpb : p x <;> simp [hpa, hpb]
    | succ n =>
      simp only [List.get?_cons_succ] at h
      have hrec := ih n a b h
      simp only [List.set_cons_succ, List.countP_cons]
      cases hpx : p x <;> simp [hpx] <;> omega

/-- Successes and failures together count every outcome. -/
lemma countP_add_countP_not {α : Type} (p : α → Bool) (l : List α) :
    l.countP p + l.countP (fun a => !p a) = l.length := by
  induction l with
  | nil => simp
  | cons x xs ih =>
    simp only [List.countP_cons, List.length_cons]
    cases hpx : p x <;> simp [hpx] <;> omega

/-- At the start of a run no task is in flight. -/
lemma inFlightCount_initialState (n : Nat) : inFlightCount (initialState n) = 0 := by
  simp [initialState, inFlightCount, TaskState.inFlight]

/-- One scheduler step under a positive limit `k` keeps the number of
in-flight tasks at or below `k`. -/
lemma step_preserves_inFlight_le (k : Nat) (goals : Nat → DeploymentGoal)
    (s s' : List TaskState) (hstep : Step (some k) goals s s')
    (hb : inFlightCount s ≤ k) : inFlightCount s' ≤ k := by
  cases hstep with
  | acquire i hq hadm =>
    have hlt : s.countP TaskState.inFlight < k := hadm
    have hc := countP_set_add TaskState.inFlight s i .transferring .queued hq
    simp [TaskState.inFlight] at hc
    simp only [inFlightCount] at hb ⊢
    omega
  | pushDone i hq hgoal =>
    have hc := countP_set_add TaskState.inFlight s i .succeeded .transferring hq
    simp [TaskState.inFlight] at hc
    simp only [inFlightCount] at hb ⊢
    omega
  | transferOk i hq hgoal =>
    have hc := countP_set_add TaskState.inFlight s i .activating .transferring hq
    simp [TaskState.inFlight] at hc
    simp only [inFlightCount] at hb ⊢
    omega
  | transferFailed i hq =>
    have hc := countP_set_add TaskState.inFlight s i .failed .transferring hq
    simp [TaskState.inFlight] at hc
    simp only [inFlightCount] at hb ⊢
    omega
  | activateOk i hq =>
    have hc := countP_set_add TaskState.inFlight s i .succeeded .activating hq
    simp [TaskState.inFlight] at hc
    simp only [inFlightCount] at hb ⊢
    omega
  | activateFailed i hq =>
    have hc := countP_set_add TaskState.inFlight s i .failed .activating hq
    simp [TaskState.inFlight] at hc
    simp only [inFlightCount] at hb ⊢
    omega

/-- The in-flight bound holds in every reachable state of a limited run. -/
lemma reachable_inFlight_le (k : Nat) (goals : Nat → DeploymentGoal) (n : Nat)
    (s : List TaskState) (h : Reachable (some k) goals n s) :
    inFlightCount s ≤ k := by
  unfold Reachable at h
  induction h with
  | refl => rw [inFlightCount_initialState]; exact Nat.zero_le k
  | tail hr hstep ih => exact step_preserves_inFlight_le k goals _ _ hstep ih

/-! ## Claim theorems -/

/-- C1: every name drained from the built-profile map is placed in exactly
one of the task list and the skip list: their sizes sum to the size of the
built selection, no name appears in both, and no name is dropped. -/
theorem task_skip_partition (allNodes : List (String × Node))
    (goal : DeploymentGoal) (args : ApplyArgs)
    (profiles : List (String × String)) (tasks : List DeploymentTask)
    (skips : List String)
    (hnodup : (profiles.map Prod.fst).Nodup)
    (h : assemble allNodes goal args profiles = some (tasks, skips)) :
    tasks.length + skips.length = profiles.length
    ∧ (∀ n, ¬(n ∈ tasks.map DeploymentTask.name ∧ n ∈ skips))
    ∧ (∀ n, n ∈ profiles.map Prod.fst ↔
        (n ∈ tasks.map DeploymentTask.name ∨ n ∈ skips)) := by
  obtain ⟨hperm, -, -, -, -⟩ := assemble_spec allNodes goal args profiles tasks skips h
  refine ⟨?_, ?_, ?_⟩
  · have hlen := hperm.length_eq
    simpa using hlen
  · intro n hn
    have hnd : (tasks.map DeploymentTask.name ++ skips).Nodup :=
      hperm.nodup_iff.mpr hnodup
    rw [List.nodup_append] at hnd
    exact hnd.2.2 hn.1 hn.2
  · intro n
    rw [← hperm.mem_iff]
    simp

/-- Witness for C1 at a concrete two-node input. -/
theorem task_skip_partition_witness :
    (fixtureProfiles.map Prod.fst).Nodup
    ∧ assemble fixtureNodes DeploymentGoal.switch fixtureArgs fixtureProfiles
        = some ([fixtureTask], ["b"])
    ∧ ([fixtureTask].length + ["b"].length = fixtureProfiles.length
       ∧ (∀ n, ¬(n ∈ [fixtureTask].map DeploymentTask.name ∧ n ∈ ["b"]))
       ∧ (∀ n, n ∈ fixtureProfiles.map Prod.fst ↔
           (n ∈ [fixtureTask].map DeploymentTask.name ∨ n ∈ ["b"]))) :=
  ⟨by decide, by decide,
    task_skip_partition fixtureNodes .switch fixtureArgs fixtureProfiles
      [fixtureTask] ["b"] (by decide) (by decide)⟩

/-- C2: a selected name becomes a `DeploymentTask` exactly when its node
resolves to a connection descriptor (`to_ssh_host` is `Some`), and it lands
in the skip list exactly when `to_ssh_host` is `None` — the "host
unreachable/unresolved" condition, the only cause of skipping. -/
theorem task_iff_host_resolved (allNodes : List (String × Node))
    (goal : DeploymentGoal) (args : ApplyArgs)
    (profiles : List (String × String)) (tasks : List DeploymentTask)
    (skips : List String)
    (h : assemble allNodes goal args profiles = some (tasks, skips)) :
    ∀ n ∈ profiles.map Prod.fst,
      ∃ node, lookupNode allNodes n = some node
        ∧ (n ∈ tasks.map DeploymentTask.name ↔ node.toSshHost.isSome = true)
        ∧ (n ∈ skips ↔ node.toSshHost = none) := by
  obtain ⟨-, -, htask, hskip, hlkall⟩ :=
    assemble_spec allNodes goal args profiles tasks skips h
  intro n hn
  obtain ⟨pr, hpr, hfeq⟩ := List.mem_map.mp hn
  have hpr' : (n, pr.2) ∈ profiles := by
    rw [← hfeq]
    simpa using hpr
  obtain ⟨node, hl⟩ := hlkall pr hpr
  rw [hfeq] at hl
  refine ⟨node, hl, ?_, ?_⟩
  · constructor
    · intro hmem
      obtain ⟨p, node', target', hmem', hlk, hs⟩ := (htask n).mp hmem
      rw [hl] at hlk
      injection hlk with hlk
      subst hlk
      simp [hs]
    · intro hsome
      obtain ⟨target, ht⟩ := Option.isSome_iff_exists.mp hsome
      exact (htask n).mpr ⟨pr.2, node, target, hpr', hl, ht⟩
  · constructor
    · intro hmem
      obtain ⟨p, node', hmem', hlk, hs⟩ := (hskip n).mp hmem
      rw [hl] at hlk
      injection hlk with hlk
      subst hlk
      exact hs
    · intro hnone
      exact (hskip n).mpr ⟨pr.2, node, hpr', hl, hnone⟩

/-- Witness for C2 at a concrete two-node input. -/
theorem task_iff_host_resolved_witness :
    assemble fixtureNodes DeploymentGoal.switch fixtureArgs fixtureProfiles
      = some ([fixtureTask], ["b"])
    ∧ ∀ n ∈ fixtureProfiles.map Prod.fst,
        ∃ node, lookupNode fixtureNodes n = some node
          ∧ (n ∈ [fixtureTask].map DeploymentTask.name ↔
              node.toSshHost.isSome = true)
          ∧ (n ∈ ["b"] ↔ node.toSshHost = none) :=
  ⟨by decide,
    task_iff_host_resolved fixtureNodes .switch fixtureArgs fixtureProfiles
      [fixtureTask] ["b"] (by decide)⟩

/-- C3: when the selection (the `--on` filter's result, or all inventory
names without a filter) is empty, `run` exits with code 2 — independently
of the build stage, so before any configuration is built and before any
task is constructed or scheduled. -/
theorem empty_selection_exits_2 (allNodes : List (String × Node))
    (filterNodes : String → List String) (args : ApplyArgs)
    (h : (selectNodes allNodes filterNodes args).length = 0) :
    ∀ buildSelected, run allNodes filterNodes buildSelected args
      = RunResult.exited 2 := by
  intro buildSelected
  simp only [run]
  rw [if_pos h]

/-- Witness for C3 with a selector matching nothing. -/
theorem empty_selection_exits_2_witness :
    (selectNodes fixtureNodes emptyFilter onArgs).length = 0
    ∧ run fixtureNodes emptyFilter fixtureBuild onArgs = RunResult.exited 2 :=
  ⟨by decide,
    empty_selection_exits_2 fixtureNodes emptyFilter onArgs (by decide)
      fixtureBuild⟩

/-- C4 counterexample: the claim says `--parallel` "accepts any non-negative
integer", but the validator is `s.parse::<usize>()`, which rejects the
non-negative integer `2^64 = 18446744073709551616` (usize overflow on a
64-bit target). -/
theorem parallel_rejects_a_nonnegative_integer :
    decimalValue "18446744073709551616".data = 2 ^ 64
    ∧ validateParallel "18446744073709551616" = false := by
  constructor
  · decide
  · decide

/-- C4 (amended): `--parallel` accepts any non-negative integer that fits
in `usize` (on a 64-bit target, at most `2^64 - 1`), accepts only such
values, defaults to 10 when absent, and maps `0` to `None` (unbounded) and
any accepted positive `k` to `Some k`. -/
theorem parallel_limit_mapping :
    parallelLimit none = some (some 10)
    ∧ (∀ c cs, (∀ x ∈ c :: cs, isAsciiDigit x = true) →
        decimalValue (c :: cs) ≤ USIZE_MAX →
        parseUsize (String.mk (c :: cs)) = some (decimalValue (c :: cs)))
    ∧ (∀ s n, parseUsize s = some n → n ≤ USIZE_MAX)
    ∧ (∀ s, parseUsize s = some 0 → parallelLimit (some s) = some none)
    ∧ (∀ s k, parseUsize s = some k → k ≠ 0 →
        parallelLimit (some s) = some (some k)) := by
  refine ⟨by decide, ?_, ?_, ?_, ?_⟩
  · intro c cs hd hv
    exact parseUsize_digits c cs hd hv
  · exact parseUsize_le
  · intro s h
    simp only [parallelLimit, Option.getD_some]
    rw [h]
  · intro s k h hk
    simp only [parallelLimit, Option.getD_some]
    rw [h]
    cases k with
    | zero => exact absurd rfl hk
    | succ m => rfl

/-- Witness for the amended C4 mapping at concrete values. -/
theorem parallel_limit_mapping_witness :
    parseUsize (String.mk ['4', '2']) = some (decimalValue ['4', '2'])
    ∧ parallelLimit (some "0") = some none
    ∧ parallelLimit (some "3") = some (some 3) :=
  ⟨parallel_limit_mapping.2.1 '4' ['2'] (by decide) (by decide),
   parallel_limit_mapping.2.2.2.1 "0" (by decide),
   parallel_limit_mapping.2.2.2.2 "3" 3 (by decide) (by decide)⟩

/-- C5: the fleet summary reflects every task's terminal state (attempted
equals the number of outcomes, successes and failures are counted exactly
and together exhaust the outcomes, the skip count is carried through), and
the process exit status is zero exactly when the attempted set is non-empty
and every attempted task succeeded. -/
theorem summary_reflects_outcomes_and_exit_status
    (outcomes : List TaskResult) (skipped : Nat) :
    (summarize outcomes skipped).attempted = outcomes.length
    ∧ (summarize outcomes skipped).succeeded
        = outcomes.countP TaskResult.isSuccess
    ∧ (summarize outcomes skipped).failed
        = outcomes.countP (fun r => !r.isSuccess)
    ∧ (summarize outcomes skipped).succeeded
        + (summarize outcomes skipped).failed = outcomes.length
    ∧ (summarize outcomes skipped).skipped = skipped
    ∧ (exitStatus (summarize outcomes skipped) = 0 ↔
        outcomes ≠ [] ∧ ∀ r ∈ outcomes, r = TaskResult.success) := by
  refine ⟨rfl, rfl, rfl, countP_add_countP_not _ _, rfl, ?_⟩
  unfold exitStatus summarize
  split
  · rename_i hcond
    obtain ⟨hpos, hzero⟩ := hcond
    simp only [true_iff]
    refine ⟨List.length_pos.mp hpos, ?_⟩
    intro r hr
    have hnr := List.countP_eq_zero.mp hzero r hr
    cases r <;> simp_all [TaskResult.isSuccess]
  · rename_i hcond
    constructor
    · intro h10
      exact absurd h10 one_ne_zero
    · rintro ⟨hne, hall⟩
      exfalso
      apply hcond
      refine ⟨List.length_pos.mpr hne, List.countP_eq_zero.mpr ?_⟩
      intro r hr
      rw [hall r hr]
      simp [TaskResult.isSuccess]

/-- C6: the positional goal argument accepts exactly the five declared
tokens, defaults to `"switch"` when absent, rejects anything else at
argument-parsing time, and every accepted token maps to a goal (so an
invalid token never surfaces as a runtime failure). -/
theorem goal_tokens_and_default :
    clapGoalValue none = some "switch"
    ∧ (∀ t, t ∈ goalTokens → clapGoalValue (some t) = some t)
    ∧ (∀ t, t ∉ goalTokens → clapGoalValue (some t) = none)
    ∧ (∀ t g, clapGoalValue (some t) = some g →
        (DeploymentGoal.fromStr g).isSome = true) := by
  refine ⟨rfl, ?_, ?_, ?_⟩
  · intro t ht
    simp [clapGoalValue, ht]
  · intro t ht
    simp [clapGoalValue, ht]
  · intro t g h
    by_cases ht : t ∈ goalTokens
    · simp only [clapGoalValue, if_pos ht, Option.some.injEq] at h
      subst h
      simp only [goalTokens, List.mem_cons, List.not_mem_nil, or_false] at ht
      rcases ht with rfl | rfl | rfl | rfl | rfl
      all_goals decide
    · simp only [clapGoalValue, if_neg ht] at h
      exact absurd h (by simp)

/-- Witness for C6 at concrete tokens. -/
theorem goal_tokens_and_default_witness :
    clapGoalValue (some "boot") = some "boot"
    ∧ clapGoalValue (some "frobnicate") = none
    ∧ (DeploymentGoal.fromStr "switch").isSome = true :=
  ⟨goal_tokens_and_default.2.1 "boot" (by decide),
   goal_tokens_and_default.2.2.1 "frobnicate" (by decide),
   goal_tokens_and_default.2.2.2 "switch" "switch" rfl⟩

/-- C7: every task constructed by the assembly loop carries copy options
with compression enabled iff `--no-gzip` is absent and substituters enabled
iff `--no-substitutes` is absent. -/
theorem tasks_carry_flag_copy_options (allNodes : List (String × Node))
    (goal : DeploymentGoal) (args : ApplyArgs)
    (profiles : List (String × String)) (tasks : List DeploymentTask)
    (skips : List String)
    (h : assemble allNodes goal args profiles = some (tasks, skips)) :
    ∀ t ∈ tasks, t.copyOptions.gzip = !args.noGzip
      ∧ t.copyOptions.useSubstitutes = !args.noSubstitutes := by
  obtain ⟨-, hopt, -, -, -⟩ :=
    assemble_spec allNodes goal args profiles tasks skips h
  intro t ht
  obtain ⟨hco, -⟩ := hopt t ht
  rw [hco]
  exact ⟨rfl, rfl⟩

/-- Witness for C7 with `--no-gzip` passed. -/
theorem tasks_carry_flag_copy_options_witness :
    assemble fixtureNodes DeploymentGoal.switch gzipOffArgs fixtureProfiles
      = some ([gzipOffTask], ["b"])
    ∧ (gzipOffTask.copyOptions.gzip = !gzipOffArgs.noGzip
       ∧ gzipOffTask.copyOptions.useSubstitutes = !gzipOffArgs.noSubstitutes) :=
  ⟨by decide,
    tasks_carry_flag_copy_options fixtureNodes .switch gzipOffArgs
      fixtureProfiles [gzipOffTask] ["b"] (by decide) gzipOffTask (by decide)⟩

/-- C8: whenever `run` reaches the executor, the `quiet` argument passed to
`deploy` is the negation of the `--verbose` flag. -/
theorem deploy_quiet_is_not_verbose (allNodes : List (String × Node))
    (filterNodes : String → List String)
    (buildSelected : List String → List (String × String)) (args : ApplyArgs)
    (tasks : List DeploymentTask) (limit : Option Nat) (quiet : Bool)
    (h : run allNodes filterNodes buildSelected args
      = RunResult.deployed tasks limit quiet) :
    quiet = !args.verbose := by
  simp only [run] at h
  split at h
  · exact absurd h (by simp)
  · split at h
    · exact absurd h (by simp)
    · split at h
      · exact absurd h (by simp)
      · injection h with h1 h2 h3
        exact h3.symm

/-- Witness for C8 at a concrete full run that reaches `deploy`. -/
theorem deploy_quiet_is_not_verbose_witness :
    run fixtureNodes emptyFilter fixtureBuild fixtureArgs
      = RunResult.deployed [fixtureTask] (some 10) true
    ∧ true = !fixtureArgs.verbose :=
  ⟨by decide,
    deploy_quiet_is_not_verbose fixtureNodes emptyFilter fixtureBuild
      fixtureArgs [fixtureTask] (some 10) true (by decide)⟩

/-- C9: in every state reachable by the executor's scheduler under a
positive concurrency limit `k`, at most `k` tasks are simultaneously in
`Transferring ∪ Activating`, for any task count, goals and interleaving;
and with no limit, admission of a queued task is never blocked. -/
theorem concurrency_limit_respected :
    (∀ (goals : Nat → DeploymentGoal) (k n : Nat) (s : List TaskState),
        Reachable (some k) goals n s → inFlightCount s ≤ k)
    ∧ (∀ (goals : Nat → DeploymentGoal) (s : List TaskState) (i : Nat),
        s.get? i = some TaskState.queued →
        Step none goals s (s.set i TaskState.transferring)) := by
  constructor
  · exact fun goals k n s h => reachable_inFlight_le k goals n s h
  · intro goals s i hq
    exact Step.acquire s i hq (by simp [admissible])

/-- Witness for C9: the bound applied to a one-task run, and an unlimited
admission step. -/
theorem concurrency_limit_respected_witness :
    inFlightCount (initialState 1) ≤ 1
    ∧ Step none (fun _ => DeploymentGoal.push) [TaskState.queued]
        ([TaskState.queued].set 0 TaskState.transferring) :=
  ⟨concurrency_limit_respected.1 (fun _ => DeploymentGoal.push) 1 1
      (initialState 1) Relation.ReflTransGen.refl,
   concurrency_limit_respected.2 (fun _ => DeploymentGoal.push)
      [TaskState.queued] 0 rfl⟩

/-- C10: for any invocation that passes clap's argument checks, the unwraps
on CLI-derived values in `run` cannot panic: `DeploymentGoal::from_str`
succeeds on the (possibly defaulted) goal token and `parse::<usize>()`
succeeds on the (possibly defaulted) parallel value. -/
theorem cli_derived_unwraps_cannot_panic (args : ApplyArgs)
    (h : clapAccepts args = true) :
    (cliStage args).isSome = true := by
  unfold clapAccepts at h
  rw [Bool.and_eq_true] at h
  obtain ⟨hg, hp⟩ := h
  have hgoal : (DeploymentGoal.fromStr (args.goal.getD "switch")).isSome
      = true := by
    cases hg2 : args.goal with
    | none => decide
    | some t =>
      rw [hg2] at hg
      simp only [goalArgOk] at hg
      have ht : t ∈ goalTokens := of_decide_eq_true hg
      simp only [Option.getD_some]
      simp only [goalTokens, List.mem_cons, List.not_mem_nil, or_false] at ht
      rcases ht with rfl | rfl | rfl | rfl | rfl
      all_goals decide
  obtain ⟨g, hgeq⟩ := Option.isSome_iff_exists.mp hgoal
  have hpl : (parallelLimit args.parallel).isSome = true := by
    unfold validateParallel at hp
    obtain ⟨n, hn⟩ := Option.isSome_iff_exists.mp hp
    unfold parallelLimit
    rw [hn]
    cases n <;> simp
  obtain ⟨l, hleq⟩ := Option.isSome_iff_exists.mp hpl
  unfold cliStage
  rw [hgeq, hleq]
  rfl

/-- Witness for C10 at a concrete accepted invocation. -/
theorem cli_derived_unwraps_cannot_panic_witness :
    clapAccepts fixtureArgs = true ∧ (cliStage fixtureArgs).isSome = true :=
  ⟨by decide, cli_derived_unwraps_cannot_panic fixtureArgs (by decide)⟩

end Colmena
